import Mathlib

/-!
Shallow embedding of the chunk-mesh baking core of `wgpu-mc`
(`src/rust/wgpu-mc/src/mc/chunk/mod.rs`), together with theorems settling
the specification claims about it.

Rust fixed-size boxed arrays (`Box<[T; N]>`) are embedded as `List`s with
an explicit length hypothesis where the claim needs it; machine `usize`
arithmetic is `Nat` with explicit `% 2 ^ 64` where wrap-around matters;
Rust code that can panic is embedded as `Option`-returning (`none` = panic).
Types of this crate that live outside the provided source tree
(`BlockState`, `BlockPos`, the block registry, the external mesh layer
baker) are modelled from the specification, as marked on each definition.
-/

namespace WgpuMc

/-! ### Constants (from `mc/chunk/mod.rs`) -/

def CHUNK_WIDTH : Nat := 16
def CHUNK_AREA : Nat := CHUNK_WIDTH * CHUNK_WIDTH
def CHUNK_HEIGHT : Nat := 256
def CHUNK_VOLUME : Nat := CHUNK_AREA * CHUNK_HEIGHT
def CHUNK_SECTION_HEIGHT : Nat := 1
def CHUNK_SECTIONS_PER : Nat := CHUNK_HEIGHT / CHUNK_SECTION_HEIGHT
def SECTION_VOLUME : Nat := CHUNK_AREA * CHUNK_SECTION_HEIGHT

/-! ### Data model -/

/-- Modelled from the spec: `BlockState` is an opaque, copyable identifier for
a block's type and variant, optionally carrying a packed key (a dense integer
index into the variant registry); `none` means air / no-render.  The packed
key is compared against `u32` registry indices in `Chunk::bake`. -/
structure BlockState where
  packed_key : Option Nat
deriving DecidableEq

/-- The all-air block state, used as the (never reached in-bounds) default
when embedding Rust's panicking index as `getD`. -/
def airState : BlockState := ⟨none⟩

/-- `pub type ChunkPos = (i32, i32);` -/
abbrev ChunkPos := Int × Int

/-- Modelled from the spec: `BlockPos` (defined in `mc/block`, outside the
provided sources) is a 3-tuple of signed integer world coordinates,
accessed in `blockstate_at_pos` as `(x, y, z) = (pos.0, pos.1, pos.2)`. -/
abbrev BlockPos := Int × Int × Int

/-- `ChunkSection`: `empty` flag, fixed-size (`SECTION_VOLUME`) block array,
vertical offset. -/
structure ChunkSection where
  empty : Bool
  blocks : List BlockState
  offset_y : Nat
deriving DecidableEq

/-- Modelled from the spec: a baked vertex layer produced by the external
Mesh Layer Baker, holding geometry grouped by face direction (the spec's
`WorldBuffers` upload target is per face direction: top / bottom / north /
south / west / east / other). `V` is the vertex type. -/
structure BakedChunkLayer (V : Type) where
  top : List V
  bottom : List V
  north : List V
  south : List V
  west : List V
  east : List V
  other : List V
deriving DecidableEq

/-- Modelled from the spec: `BakedChunkLayer::new()` — an empty layer. -/
def BakedChunkLayer.new {V : Type} : BakedChunkLayer V :=
  ⟨[], [], [], [], [], [], []⟩

/-- Modelled from the spec: `extend(target, source)` merges one baked layer's
geometry into another in place (concatenation per face direction). -/
def BakedChunkLayer.extend {V : Type} (t s : BakedChunkLayer V) : BakedChunkLayer V :=
  ⟨t.top ++ s.top, t.bottom ++ s.bottom, t.north ++ s.north, t.south ++ s.south,
   t.west ++ s.west, t.east ++ s.east, t.other ++ s.other⟩

/-- Total number of vertices in a baked layer. -/
def BakedChunkLayer.vertexCount {V : Type} (l : BakedChunkLayer V) : Nat :=
  l.top.length + l.bottom.length + l.north.length + l.south.length +
    l.west.length + l.east.length + l.other.length

/-- An opaque GPU buffer handle (`wgpu::Buffer` is external GPU state; its
contents are not observable from this core). -/
structure GpuBuffer where
deriving DecidableEq

/-- `WorldBuffers`: per face-direction GPU buffer handle plus vertex count. -/
structure WorldBuffers where
  top : GpuBuffer × Nat
  bottom : GpuBuffer × Nat
  north : GpuBuffer × Nat
  south : GpuBuffer × Nat
  west : GpuBuffer × Nat
  east : GpuBuffer × Nat
  other : GpuBuffer × Nat
deriving DecidableEq

/-- Total vertex count across all face directions of a `WorldBuffers`. -/
def WorldBuffers.vertexCount (w : WorldBuffers) : Nat :=
  w.top.2 + w.bottom.2 + w.north.2 + w.south.2 + w.west.2 + w.east.2 + w.other.2

/-- Modelled from the spec: `upload(renderer_context, baked_layer) ->
WorldBuffers` copies each face direction's geometry to a GPU buffer and
records its vertex count.  The renderer context and the opaque buffer
handles carry no observable state in this model. -/
def BakedChunkLayer.upload {V : Type} (l : BakedChunkLayer V) : WorldBuffers :=
  ⟨(⟨⟩, l.top.length), (⟨⟩, l.bottom.length), (⟨⟩, l.north.length),
   (⟨⟩, l.south.length), (⟨⟩, l.west.length), (⟨⟩, l.east.length),
   (⟨⟩, l.other.length)⟩

/-- `ChunkLayers`: the three-way bundle one `Chunk::bake` produces.
`G` is the grass vertex type and `T` the terrain vertex type; both are
produced by the external tessellator and treated as opaque here. -/
structure ChunkLayers (G T : Type) where
  grass : BakedChunkLayer G
  glass : BakedChunkLayer T
  terrain : BakedChunkLayer T
deriving DecidableEq

/-- `Chunk`: position, section array (`Box<[ChunkSection; CHUNK_SECTIONS_PER]>`,
embedded as a list whose length invariant is carried by hypotheses), and the
`ArcSwap<Option<ChunkLayers>>` baked-bundle slot, embedded as an explicit
state field. -/
structure Chunk (G T : Type) where
  pos : ChunkPos
  sections : List ChunkSection
  baked : Option (ChunkLayers G T)

/-! ### `Chunk::new` -/

/-- `Chunk::new(pos, blocks)`: splits the flat block array into
`CHUNK_SECTIONS_PER` sections; section `s` takes indices
`s * SECTION_VOLUME .. (s + 1) * SECTION_VOLUME` of the input.  Note the
`empty` flag is computed, as in the source, by scanning the whole `blocks`
array (`blocks.iter().any(...)`), not the section's own slice. -/
def Chunk.new {G T : Type} (pos : ChunkPos) (blocks : List BlockState) :
    Chunk G T :=
  { pos := pos
    sections := (List.range CHUNK_SECTIONS_PER).map (fun s =>
      let start_index := s * SECTION_VOLUME
      let block_section : List BlockState :=
        (List.range' start_index SECTION_VOLUME).map
          (fun index => (blocks[index]?).getD airState)
      { empty := ! blocks.any (fun state => state.packed_key.isSome)
        blocks := block_section
        offset_y := s * CHUNK_SECTION_HEIGHT })
    baked := none }

/-! ### `Chunk::blockstate_at_pos` -/

/-- The modulus of `usize` arithmetic. -/
def USIZE_MOD : Nat := 2 ^ 64

/-- Rust `as usize` applied to a signed integer value: two's-complement
reinterpretation, i.e. reduction into `[0, 2 ^ 64)`. -/
def asUsize (v : Int) : Nat := (v % (USIZE_MOD : Int)).toNat

/-- `Chunk::blockstate_at_pos(pos)` with Rust semantics: `%` on `i32` is the
truncated remainder (`Int.tmod`), the results are cast `as usize`, and the
two slice indexings panic (here: return `none`) when out of bounds; the
`usize` index arithmetic wraps modulo `2 ^ 64`. -/
def Chunk.blockstate_at_pos {G T : Type} (self : Chunk G T) (pos : BlockPos) :
    Option BlockState :=
  let x := asUsize (Int.tmod pos.1 16)
  let y := asUsize pos.2.1
  let z := asUsize (Int.tmod pos.2.2 16)
  match self.sections[y]? with
  | none => none
  | some sec => sec.blocks[(z * CHUNK_WIDTH + x) % USIZE_MOD]?

/-! ### `Chunk::bake` -/

/-- Modelled from the spec: the block registry (`BlockManager`, outside the
provided sources) maps string variant identifiers to dense packed-key
indices (`variant_indices.get`, a fallible lookup). -/
structure BlockManager where
  variant_indices : String → Option Nat

/-- The fixed grass variant identifier looked up by `Chunk::bake`. -/
def GRASS_ID : String := "minecraft:blockstates/grass.json#"

/-- The fixed glass variant identifier looked up by `Chunk::bake`. -/
def GLASS_ID : String := "minecraft:blockstates/glass.json#"

/-- Rust `as u32` on a `usize` registry index. -/
def asU32 (n : Nat) : Nat := n % 2 ^ 32

/-- The grass classification predicate built by `Chunk::bake`:
`state.packed_key == Some(grass_index)`. -/
def grassPred (grass_index : Nat) (state : BlockState) : Bool :=
  match state.packed_key with
  | none => false
  | some key => key == grass_index

/-- The glass classification predicate built by `Chunk::bake`:
`state.packed_key == Some(glass_index)`. -/
def glassPred (glass_index : Nat) (state : BlockState) : Bool :=
  match state.packed_key with
  | none => false
  | some key => key == glass_index

/-- The terrain classification predicate built by `Chunk::bake`: a packed key
that is neither the grass nor the glass index. -/
def terrainPred (grass_index glass_index : Nat) (state : BlockState) : Bool :=
  match state.packed_key with
  | none => false
  | some key => key != grass_index && key != glass_index

/-- `Chunk::bake(block_manager)`: looks up the grass and glass packed keys
(each `.unwrap()` panics — returns `none` — when the registry entry is
missing), builds the three layers through the external baker, and stores the
fully constructed `ChunkLayers` bundle in the chunk's baked slot in a single
replacement.  `layerBakeG`/`layerBakeT` stand for the external
`BakedChunkLayer::bake` for the grass and terrain vertex types; the
floating-point vertex-transform closures are internal to the excluded
tessellator and carry no state observed by this core, so the model keeps only
the classification predicate argument of the bake contract. -/
def Chunk.bake {G T : Type}
    (layerBakeG : BlockManager → Chunk G T → (BlockState → Bool) → BakedChunkLayer G)
    (layerBakeT : BlockManager → Chunk G T → (BlockState → Bool) → BakedChunkLayer T)
    (block_manager : BlockManager) (self : Chunk G T) : Option (Chunk G T) := do
  let grass_index_raw ← block_manager.variant_indices GRASS_ID
  let grass_index := asU32 grass_index_raw
  let glass_index_raw ← block_manager.variant_indices GLASS_ID
  let glass_index := asU32 glass_index_raw
  let grass := layerBakeG block_manager self (grassPred grass_index)
  let glass := layerBakeT block_manager self (glassPred glass_index)
  let terrain := layerBakeT block_manager self (terrainPred grass_index glass_index)
  some { self with baked := some ⟨grass, glass, terrain⟩ }

/-! ### `ChunkManager` -/

/-- A string-keyed map (`HashMap<String, WorldBuffers>`), embedded
extensionally as a lookup function. -/
def StrMap (V : Type) := String → Option V

/-- `HashMap::new()`. -/
def StrMap.empty {V : Type} : StrMap V := fun _ => none

/-- `HashMap::insert`. -/
def StrMap.insert {V : Type} (m : StrMap V) (k : String) (v : V) : StrMap V :=
  fun k' => if k' = k then some v else m k'

/-- `ChunkManager`: origin, loaded chunks keyed by position (the
`RwLock<HashMap<..>>` embedded as an association list whose order is the
snapshot iteration order), and the published `ArcSwap` material-name →
`WorldBuffers` mapping, embedded as an explicit state field. -/
structure ChunkManager (G T : Type) where
  chunk_origin : ChunkPos
  loaded_chunks : List (ChunkPos × Chunk G T)
  section_buffers : StrMap WorldBuffers

/-- `ChunkManager::new()`. -/
def ChunkManager.new {G T : Type} : ChunkManager G T :=
  { chunk_origin := (0, 0)
    loaded_chunks := []
    section_buffers := StrMap.empty }

/-- `ChunkManager::bake_meshes(wm)`: snapshot the loaded chunks, bake every
chunk (the data-parallel `par_iter().for_each` is embedded as `mapM`, sound
because each bake touches only its own chunk's baked slot), then retrieve
each chunk's baked bundle (`(**baked).as_ref().unwrap()` — the second
`mapM` is that unwrap), merge the three layers across chunks in snapshot
order, upload, and replace the published buffer map in a single store.
`none` embeds a panic of the pass. -/
def ChunkManager.bake_meshes {G T : Type}
    (layerBakeG : BlockManager → Chunk G T → (BlockState → Bool) → BakedChunkLayer G)
    (layerBakeT : BlockManager → Chunk G T → (BlockState → Bool) → BakedChunkLayer T)
    (block_manager : BlockManager) (self : ChunkManager G T) :
    Option (ChunkManager G T) := do
  let chunks := self.loaded_chunks.map Prod.snd
  let chunks ← chunks.mapM (Chunk.bake layerBakeG layerBakeT block_manager)
  let layersList ← chunks.mapM (fun chunk => chunk.baked)
  let glass := layersList.foldl (fun acc l => acc.extend l.glass) BakedChunkLayer.new
  let grass := layersList.foldl (fun acc l => acc.extend l.grass) BakedChunkLayer.new
  let terrain := layersList.foldl (fun acc l => acc.extend l.terrain) BakedChunkLayer.new
  let map := ((StrMap.empty.insert "transparent" glass.upload).insert
      "grass" grass.upload).insert "terrain" terrain.upload
  some { self with
    loaded_chunks := (self.loaded_chunks.map Prod.fst).zip chunks
    section_buffers := map }

/-! ### Helper lemmas -/

/-- Reading a slice `[k + a, k + a + m)` out of `l` is reading
`[a, a + m)` out of `l.drop k`. -/
theorem map_getD_range'_shift {α : Type} (d : α) (k a m : Nat) (l : List α) :
    (List.range' (k + a) m).map (fun i => (l[i]?).getD d) =
      (List.range' a m).map (fun i => ((l.drop k)[i]?).getD d) := by
  apply List.ext_getElem (by simp)
  intro j h1 h2
  simp only [List.getElem_map, List.getElem_range', List.getElem?_drop]
  have h3 : k + a + 1 * j = k + (a + 1 * j) := by omega
  rw [h3]

/-- Reading the slice `[0, k)` out of `l` is `l.take k` when `k` is within
bounds. -/
theorem map_getD_range'_take {α : Type} (d : α) (k : Nat) (l : List α)
    (h : k ≤ l.length) :
    (List.range' 0 k).map (fun i => (l[i]?).getD d) = l.take k := by
  apply List.ext_getElem (by simp; omega)
  intro j h1 h2
  have hj : j < l.length := by
    simp at h1
    omega
  simp only [List.getElem_map, List.getElem_range', List.getElem_take,
    Nat.zero_add, Nat.one_mul]
  simp [List.getElem?_eq_getElem hj]

/-- Concatenating the `n` consecutive length-`k` slices of a list of length
`n * k` reproduces the list. -/
theorem join_map_range'_slices {α : Type} (d : α) (k : Nat) :
    ∀ (n : Nat) (l : List α), l.length = n * k →
      ((List.range n).map (fun s =>
        (List.range' (s * k) k).map (fun i => (l[i]?).getD d))).flatten = l := by
  intro n
  induction n with
  | zero =>
    intro l hl
    simp at hl
    simp [hl]
  | succ n ih =>
    intro l hl
    have hk : k ≤ l.length := by
      rw [hl]
      calc k = 1 * k := (Nat.one_mul k).symm
        _ ≤ (n + 1) * k := Nat.mul_le_mul_right k (by omega)
    rw [List.range_succ_eq_map, List.map_cons, List.map_map, List.flatten_cons]
    have hhead : (List.range' (0 * k) k).map (fun i => (l[i]?).getD d) = l.take k := by
      rw [Nat.zero_mul]
      exact map_getD_range'_take d k l hk
    have htail :
        (List.range n).map
            ((fun s => (List.range' (s * k) k).map (fun i => (l[i]?).getD d)) ∘ Nat.succ) =
          (List.range n).map (fun s =>
            (List.range' (s * k) k).map (fun i => ((l.drop k)[i]?).getD d)) := by
      apply List.map_congr_left
      intro s _
      have hs : Nat.succ s * k = k + s * k := by
        rw [Nat.succ_mul]
        omega
      simp only [Function.comp]
      rw [hs, map_getD_range'_shift]
    rw [hhead, htail, ih (l.drop k) (by simp [hl, Nat.succ_mul])]
    exact List.take_append_drop k l

/-- The three-layer bundle a successful `Chunk::bake` constructs for a chunk,
given the resolved grass and glass registry indices. -/
def chunkLayersOf {G T : Type}
    (layerBakeG : BlockManager → Chunk G T → (BlockState → Bool) → BakedChunkLayer G)
    (layerBakeT : BlockManager → Chunk G T → (BlockState → Bool) → BakedChunkLayer T)
    (block_manager : BlockManager) (gi gl : Nat) (c : Chunk G T) :
    ChunkLayers G T :=
  ⟨layerBakeG block_manager c (grassPred (asU32 gi)),
   layerBakeT block_manager c (glassPred (asU32 gl)),
   layerBakeT block_manager c (terrainPred (asU32 gi) (asU32 gl))⟩

/-- The chunk state after a successful `Chunk::bake`. -/
def bakedChunk {G T : Type}
    (layerBakeG : BlockManager → Chunk G T → (BlockState → Bool) → BakedChunkLayer G)
    (layerBakeT : BlockManager → Chunk G T → (BlockState → Bool) → BakedChunkLayer T)
    (block_manager : BlockManager) (gi gl : Nat) (c : Chunk G T) : Chunk G T :=
  { c with baked := some (chunkLayersOf layerBakeG layerBakeT block_manager gi gl c) }

/-- An arbitrary bundle, used as the `getD` default when naming the value
inside an `Option` already known to be `some`. -/
def anyBundle {G T : Type} : ChunkLayers G T :=
  ⟨BakedChunkLayer.new, BakedChunkLayer.new, BakedChunkLayer.new⟩

/-- With both registry entries present, `Chunk::bake` returns the chunk with
the fully constructed bundle stored. -/
theorem bake_eq_some {G T : Type}
    (layerBakeG : BlockManager → Chunk G T → (BlockState → Bool) → BakedChunkLayer G)
    (layerBakeT : BlockManager → Chunk G T → (BlockState → Bool) → BakedChunkLayer T)
    (bm : BlockManager) (c : Chunk G T) (gi gl : Nat)
    (h1 : bm.variant_indices GRASS_ID = some gi)
    (h2 : bm.variant_indices GLASS_ID = some gl) :
    Chunk.bake layerBakeG layerBakeT bm c
      = some (bakedChunk layerBakeG layerBakeT bm gi gl c) := by
  simp [Chunk.bake, h1, h2, bakedChunk, chunkLayersOf]

/-- With a registry entry missing, `Chunk::bake` panics (`none`). -/
theorem bake_eq_none {G T : Type}
    (layerBakeG : BlockManager → Chunk G T → (BlockState → Bool) → BakedChunkLayer G)
    (layerBakeT : BlockManager → Chunk G T → (BlockState → Bool) → BakedChunkLayer T)
    (bm : BlockManager) (c : Chunk G T)
    (h : bm.variant_indices GRASS_ID = none ∨ bm.variant_indices GLASS_ID = none) :
    Chunk.bake layerBakeG layerBakeT bm c = none := by
  rcases h with h | h
  · simp [Chunk.bake, h]
  · cases hg : bm.variant_indices GRASS_ID with
    | none => simp [Chunk.bake, hg]
    | some gi => simp [Chunk.bake, hg, h]

/-- `mapM` over `Option` succeeds with the pointwise values when the function
succeeds on every element of the list. -/
theorem mapM_option_eq_some {α β : Type} (f : α → Option β) (g : α → β) :
    ∀ l : List α, (∀ a ∈ l, f a = some (g a)) → l.mapM f = some (l.map g) := by
  intro l
  induction l with
  | nil =>
    intro _
    rfl
  | cons a t ih =>
    intro hl
    rw [List.mapM_cons, hl a (by simp), ih (fun b hb => hl b (by simp [hb]))]
    rfl

/-- With both registry entries present, `bake_meshes` completes: every bake
in the parallel phase succeeds, the merge step's unwrap always finds a
bundle, and the published map is replaced, in one store, by the three merged
uploads built from the snapshot in iteration order. -/
theorem bake_meshes_eq {G T : Type}
    (layerBakeG : BlockManager → Chunk G T → (BlockState → Bool) → BakedChunkLayer G)
    (layerBakeT : BlockManager → Chunk G T → (BlockState → Bool) → BakedChunkLayer T)
    (bm : BlockManager) (mgr : ChunkManager G T) (gi gl : Nat)
    (h1 : bm.variant_indices GRASS_ID = some gi)
    (h2 : bm.variant_indices GLASS_ID = some gl) :
    ChunkManager.bake_meshes layerBakeG layerBakeT bm mgr = some
      { chunk_origin := mgr.chunk_origin
        loaded_chunks := (mgr.loaded_chunks.map Prod.fst).zip
          ((mgr.loaded_chunks.map Prod.snd).map
            (bakedChunk layerBakeG layerBakeT bm gi gl))
        section_buffers :=
          ((StrMap.empty.insert "transparent"
            ((((mgr.loaded_chunks.map Prod.snd).map
                (chunkLayersOf layerBakeG layerBakeT bm gi gl)).foldl
              (fun acc l => acc.extend l.glass) BakedChunkLayer.new).upload)).insert
            "grass"
            ((((mgr.loaded_chunks.map Prod.snd).map
                (chunkLayersOf layerBakeG layerBakeT bm gi gl)).foldl
              (fun acc l => acc.extend l.grass) BakedChunkLayer.new).upload)).insert
            "terrain"
            ((((mgr.loaded_chunks.map Prod.snd).map
                (chunkLayersOf layerBakeG layerBakeT bm gi gl)).foldl
              (fun acc l => acc.extend l.terrain) BakedChunkLayer.new).upload) } := by
  have hbake := mapM_option_eq_some
    (Chunk.bake layerBakeG layerBakeT bm)
    (bakedChunk layerBakeG layerBakeT bm gi gl)
    (mgr.loaded_chunks.map Prod.snd)
    (fun c _ => bake_eq_some layerBakeG layerBakeT bm c gi gl h1 h2)
  have hunwrap := mapM_option_eq_some
    (fun c : Chunk G T => c.baked)
    (fun c => c.baked.getD anyBundle)
    ((mgr.loaded_chunks.map Prod.snd).map (bakedChunk layerBakeG layerBakeT bm gi gl))
    (by
      intro a ha
      simp only [List.mem_map] at ha
      obtain ⟨c, -, rfl⟩ := ha
      rfl)
  unfold ChunkManager.bake_meshes
  simp only [hbake, hunwrap, Option.bind_eq_bind, Option.some_bind]
  simp only [List.map_map]
  rfl

/-- `extend` adds vertex counts. -/
theorem vertexCount_extend {V : Type} (a b : BakedChunkLayer V) :
    (a.extend b).vertexCount = a.vertexCount + b.vertexCount := by
  simp [BakedChunkLayer.extend, BakedChunkLayer.vertexCount]
  omega

/-- `upload` records exactly the layer's vertex counts. -/
theorem vertexCount_upload {V : Type} (l : BakedChunkLayer V) :
    l.upload.vertexCount = l.vertexCount := rfl

/-- Folding `extend` over a list of layers sums the vertex counts. -/
theorem vertexCount_foldl_extend {V : Type} :
    ∀ (ls : List (BakedChunkLayer V)) (acc : BakedChunkLayer V),
      (ls.foldl BakedChunkLayer.extend acc).vertexCount
        = acc.vertexCount + (ls.map BakedChunkLayer.vertexCount).sum := by
  intro ls
  induction ls with
  | nil =>
    intro acc
    simp
  | cons a t ih =>
    intro acc
    rw [List.foldl_cons, ih, vertexCount_extend, List.map_cons, List.sum_cons]
    omega

/-! #### Concrete instantiations used by the witnesses -/

/-- A concrete registry holding both required entries (grass ↦ 0, glass ↦ 1). -/
def bmGood : BlockManager :=
  ⟨fun k => if k = GRASS_ID then some 0 else if k = GLASS_ID then some 1 else none⟩

/-- A concrete registry with no entries at all. -/
def bmBad : BlockManager := ⟨fun _ => none⟩

/-- A trivial instantiation of the external grass-layer baker. -/
def layerBakeG0 :
    BlockManager → Chunk Unit Unit → (BlockState → Bool) → BakedChunkLayer Unit :=
  fun _ _ _ => BakedChunkLayer.new

/-- An instantiation of the external terrain-layer baker producing one vertex
per chunk. -/
def layerBakeT1 :
    BlockManager → Chunk Unit Unit → (BlockState → Bool) → BakedChunkLayer Unit :=
  fun _ _ _ => ⟨[()], [], [], [], [], [], []⟩

/-- A concrete chunk at position (0, 0). -/
def chunk0 : Chunk Unit Unit := ⟨(0, 0), [], none⟩

/-- A concrete chunk at position (1, 0). -/
def chunk1 : Chunk Unit Unit := ⟨(1, 0), [], none⟩

/-- The chunk state `Chunk::bake` produces for `chunk0` under `bmGood`. -/
def chunk0Baked : Chunk Unit Unit :=
  bakedChunk layerBakeG0 layerBakeT1 bmGood 0 1 chunk0

/-- A concrete manager with two loaded chunks, at (0, 0) and (1, 0). -/
def mgr2 : ChunkManager Unit Unit :=
  ⟨(0, 0), [((0, 0), chunk0), ((1, 0), chunk1)], StrMap.empty⟩

/-- `as usize` of the Rust truncated remainder `v % 16`, for nonnegative `v`,
is plain `Nat` remainder. -/
theorem asUsize_tmod_of_nonneg (v : Int) (hv : 0 ≤ v) :
    asUsize (Int.tmod v 16) = v.toNat % 16 := by
  rw [Int.tmod_eq_emod hv (by decide)]
  unfold asUsize USIZE_MOD
  have h : ((2 ^ 64 : Nat) : Int) = 18446744073709551616 := by norm_num
  rw [h]
  omega

/-- `as usize` of a small nonnegative value is its `Nat` value. -/
theorem asUsize_of_small (v : Int) (hv : 0 ≤ v) (hv2 : v < 256) :
    asUsize v = v.toNat := by
  unfold asUsize USIZE_MOD
  have h : ((2 ^ 64 : Nat) : Int) = 18446744073709551616 := by norm_num
  rw [h]
  omega

/-! ### Claim theorems -/

/-- The section produced at index `s` by `Chunk::new`. -/
theorem new_sections_getElem {G T : Type} (pos : ChunkPos)
    (blocks : List BlockState) (s : Nat) (hs : s < CHUNK_SECTIONS_PER) :
    (Chunk.new (G := G) (T := T) pos blocks).sections[s]? = some
      { empty := ! blocks.any (fun state => state.packed_key.isSome)
        blocks := (List.range' (s * SECTION_VOLUME) SECTION_VOLUME).map
          (fun index => (blocks[index]?).getD airState)
        offset_y := s * CHUNK_SECTION_HEIGHT } := by
  simp [Chunk.new, List.getElem?_range hs]

/-- Claim C4, amended to nonnegative `x` and `z` (world coordinates at or
right of the origin): for every chunk with the type-level section-array
invariants and every position with `0 ≤ x`, `0 ≤ z`, `0 ≤ y < CHUNK_HEIGHT`,
`blockstate_at_pos` returns the `BlockState` stored in section `y` at
in-section index `(z % CHUNK_WIDTH) * CHUNK_WIDTH + x % CHUNK_WIDTH`. -/
theorem C4_blockstate_at_pos_nonneg (G T : Type) (c : Chunk G T) (x y z : Int)
    (hsec : c.sections.length = CHUNK_SECTIONS_PER)
    (hblocks : ∀ sec ∈ c.sections, sec.blocks.length = SECTION_VOLUME)
    (hx : 0 ≤ x) (hz : 0 ≤ z) (hy0 : 0 ≤ y) (hy : y < (CHUNK_HEIGHT : Int)) :
    ∃ sec b,
      c.sections[y.toNat]? = some sec ∧
      sec.blocks[(z.toNat % CHUNK_WIDTH) * CHUNK_WIDTH + x.toNat % CHUNK_WIDTH]?
        = some b ∧
      c.blockstate_at_pos (x, y, z) = some b := by
  have hw : CHUNK_WIDTH = 16 := rfl
  have h256 : (CHUNK_HEIGHT : Int) = 256 := by decide
  have hylt : y.toNat < c.sections.length := by
    rw [hsec]
    have h2 : CHUNK_SECTIONS_PER = 256 := rfl
    omega
  obtain ⟨sec, hsecEq⟩ : ∃ sec, c.sections[y.toNat]? = some sec :=
    ⟨_, List.getElem?_eq_getElem hylt⟩
  have hblen : sec.blocks.length = SECTION_VOLUME :=
    hblocks sec (List.getElem?_mem hsecEq)
  have hSV : SECTION_VOLUME = 256 := rfl
  have hidx : (z.toNat % CHUNK_WIDTH) * CHUNK_WIDTH + x.toNat % CHUNK_WIDTH
      < sec.blocks.length := by
    rw [hblen, hSV, hw]
    omega
  obtain ⟨b, hbEq⟩ : ∃ b,
      sec.blocks[(z.toNat % CHUNK_WIDTH) * CHUNK_WIDTH + x.toNat % CHUNK_WIDTH]?
        = some b :=
    ⟨_, List.getElem?_eq_getElem hidx⟩
  refine ⟨sec, b, hsecEq, hbEq, ?_⟩
  have hxu : asUsize (Int.tmod x 16) = x.toNat % 16 := asUsize_tmod_of_nonneg x hx
  have hzu : asUsize (Int.tmod z 16) = z.toNat % 16 := asUsize_tmod_of_nonneg z hz
  have hyu : asUsize y = y.toNat := asUsize_of_small y hy0 (by omega)
  have hmod : (z.toNat % 16 * CHUNK_WIDTH + x.toNat % 16) % USIZE_MOD
      = (z.toNat % 16) * CHUNK_WIDTH + x.toNat % 16 := by
    apply Nat.mod_eq_of_lt
    have hU : USIZE_MOD = 18446744073709551616 := by norm_num [USIZE_MOD]
    rw [hw, hU]
    omega
  simp only [Chunk.blockstate_at_pos, hxu, hzu, hyu, hw, hsecEq]
  rw [hw] at hbEq hmod
  rw [hmod]
  exact hbEq

/-- Witness for C4 (amended), at a freshly constructed all-air chunk and the
in-range position `(20, 3, 5)`. -/
theorem C4_blockstate_at_pos_nonneg_witness :
    ∃ sec b,
      (Chunk.new (G := Unit) (T := Unit) (0, 0)
          (List.replicate CHUNK_VOLUME airState)).sections[(3 : Int).toNat]?
        = some sec ∧
      sec.blocks[((5 : Int).toNat % CHUNK_WIDTH) * CHUNK_WIDTH
          + (20 : Int).toNat % CHUNK_WIDTH]? = some b ∧
      (Chunk.new (G := Unit) (T := Unit) (0, 0)
          (List.replicate CHUNK_VOLUME airState)).blockstate_at_pos (20, 3, 5)
        = some b :=
  C4_blockstate_at_pos_nonneg Unit Unit _ 20 3 5
    (by simp [Chunk.new])
    (by
      intro sec hs
      simp only [Chunk.new, List.mem_map, List.mem_range] at hs
      obtain ⟨s, -, rfl⟩ := hs
      simp)
    (by decide) (by decide) (by decide) (by decide)

/-- Claim C4, as stated, is false at negative world coordinates: at the
all-air chunk and position `(-1, 0, 0)` the claim promises the stored block
at in-section index `15` (i.e. `some airState`), but the code's truncated
remainder `-1 % 16 = -1` cast `as usize` produces the huge index
`2 ^ 64 - 1`, and the lookup panics (`none`). -/
theorem C4_world_coords_counterexample :
    (Chunk.new (G := Unit) (T := Unit) (0, 0)
        (List.replicate CHUNK_VOLUME airState)).blockstate_at_pos (-1, 0, 0)
      = none ∧
    ∃ sec, (Chunk.new (G := Unit) (T := Unit) (0, 0)
        (List.replicate CHUNK_VOLUME airState)).sections[(0 : Nat)]? = some sec ∧
      sec.blocks[(0 % CHUNK_WIDTH) * CHUNK_WIDTH + 15 % CHUNK_WIDTH]?
        = some airState := by
  constructor
  · have hx : asUsize (Int.tmod (-1) 16) = USIZE_MOD - 1 := by decide
    have hy : asUsize 0 = 0 := by decide
    have hz : asUsize (Int.tmod 0 16) = 0 := by decide
    simp only [Chunk.blockstate_at_pos, hx, hy, hz]
    rw [new_sections_getElem (0, 0) _ 0 (by decide)]
    apply List.getElem?_eq_none
    simp only [List.length_map, List.length_range']
    decide
  · refine ⟨_, new_sections_getElem (0, 0) _ 0 (by decide), ?_⟩
    rw [List.getElem?_map,
      List.getElem?_range' (0 * SECTION_VOLUME) 1 (by decide)]
    have h15 : 0 * SECTION_VOLUME
        + 1 * (0 % CHUNK_WIDTH * CHUNK_WIDTH + 15 % CHUNK_WIDTH) = 15 := by decide
    rw [h15, Option.map_some', List.getElem?_replicate_of_lt (by decide)]
    rfl

/-- The input array exhibiting C1's divergence: a packed-key block at flat
index 0 (inside section 0's slice), all other blocks air. -/
def c1Blocks : List BlockState :=
  { packed_key := some 7 } :: List.replicate (CHUNK_VOLUME - 1) airState

/-- Claim C1 is violated by the code: at `c1Blocks`, section 1's own slice of
the input (indices `SECTION_VOLUME .. 2 * SECTION_VOLUME`) contains no block
with a packed key, yet the constructed section 1 has `empty = false`, because
the source computes every section's `empty` flag by scanning the whole chunk
array rather than the section's slice. -/
theorem C1_empty_flag_divergence :
    ∃ sec, (Chunk.new (G := Unit) (T := Unit) (0, 0) c1Blocks).sections[1]?
        = some sec ∧
      sec.empty = false ∧
      ∀ b ∈ sec.blocks, b.packed_key = none := by
  refine ⟨_, new_sections_getElem (0, 0) c1Blocks 1 (by decide), ?_, ?_⟩
  · simp [c1Blocks]
  · intro b hb
    simp only [List.mem_map] at hb
    obtain ⟨i, hi, rfl⟩ := hb
    rw [List.mem_range'] at hi
    obtain ⟨t, ht, rfl⟩ := hi
    have hSV : SECTION_VOLUME = 256 := rfl
    have hCV : CHUNK_VOLUME = 65536 := rfl
    obtain ⟨j, hj⟩ : ∃ j, 1 * SECTION_VOLUME + 1 * t = j + 1 := ⟨1 * SECTION_VOLUME + 1 * t - 1, by omega⟩
    rw [hj]
    have hjlt : j < CHUNK_VOLUME - 1 := by omega
    simp [c1Blocks, List.getElem?_replicate_of_lt hjlt, airState]

/-- Claim C2: under the precondition that the grass packed key differs from
the glass packed key, the three classification predicates built by
`Chunk::bake` are mutually exclusive and exhaustive over non-air states:
every `BlockState` with `packed_key = none` satisfies none of them, and every
`BlockState` with a packed key satisfies exactly one of grass, glass,
terrain. -/
theorem C2_classification_partition (gi gl : Nat) (h : gi ≠ gl) :
    (∀ s : BlockState, s.packed_key = none →
      grassPred gi s = false ∧ glassPred gl s = false ∧ terrainPred gi gl s = false) ∧
    (∀ s : BlockState, s.packed_key.isSome = true →
      ((grassPred gi s = true ∧ glassPred gl s = false ∧ terrainPred gi gl s = false) ∨
       (grassPred gi s = false ∧ glassPred gl s = true ∧ terrainPred gi gl s = false) ∨
       (grassPred gi s = false ∧ glassPred gl s = false ∧ terrainPred gi gl s = true))) := by
  constructor
  · intro s hs
    simp [grassPred, glassPred, terrainPred, hs]
  · intro s hs
    match hkey : s.packed_key with
    | none => simp [hkey] at hs
    | some key =>
      by_cases hgi : key = gi
      · subst hgi
        left
        simp [grassPred, glassPred, terrainPred, hkey, h, Ne.symm h]
      · by_cases hgl : key = gl
        · subst hgl
          right; left
          simp [grassPred, glassPred, terrainPred, hkey, hgi]
        · right; right
          simp [grassPred, glassPred, terrainPred, hkey, hgi, hgl]

/-- Claim C3: for every flat block array of exactly the chunk volume,
`Chunk::new` produces exactly `CHUNK_HEIGHT / CHUNK_SECTION_HEIGHT` sections,
and concatenating the blocks of all sections in sequence order reproduces
the original flat input array exactly. -/
theorem C3_new_sections_concat (G T : Type) (pos : ChunkPos)
    (blocks : List BlockState) (h : blocks.length = CHUNK_VOLUME) :
    (Chunk.new (G := G) (T := T) pos blocks).sections.length
        = CHUNK_HEIGHT / CHUNK_SECTION_HEIGHT ∧
    ((Chunk.new (G := G) (T := T) pos blocks).sections.map
        (fun sec => sec.blocks)).flatten = blocks := by
  constructor
  · simp [Chunk.new, CHUNK_SECTIONS_PER]
  · have hlen : blocks.length = CHUNK_SECTIONS_PER * SECTION_VOLUME := by
      rw [h]
      rfl
    have := join_map_range'_slices airState SECTION_VOLUME CHUNK_SECTIONS_PER
      blocks hlen
    simpa [Chunk.new, List.map_map, Function.comp] using this

/-- Witness for C3, at the all-air input array. -/
theorem C3_new_sections_concat_witness :
    (List.replicate CHUNK_VOLUME airState).length = CHUNK_VOLUME ∧
    ((Chunk.new (G := Unit) (T := Unit) (0, 0)
        (List.replicate CHUNK_VOLUME airState)).sections.length
      = CHUNK_HEIGHT / CHUNK_SECTION_HEIGHT ∧
    ((Chunk.new (G := Unit) (T := Unit) (0, 0)
        (List.replicate CHUNK_VOLUME airState)).sections.map
      (fun sec => sec.blocks)).flatten = List.replicate CHUNK_VOLUME airState) :=
  ⟨by simp,
   C3_new_sections_concat Unit Unit (0, 0) (List.replicate CHUNK_VOLUME airState)
     (by simp)⟩

/-- Claim C9: for every chunk constructed by `Chunk::new`, the `empty` flag
is uniform across all its sections: either every section has `empty = true`
(exactly when no block anywhere in the whole input array has a packed key) or
every section has `empty = false`. -/
theorem C9_empty_flag_uniform (G T : Type) (pos : ChunkPos)
    (blocks : List BlockState) (_h : blocks.length = CHUNK_VOLUME) :
    ((∀ sec ∈ (Chunk.new (G := G) (T := T) pos blocks).sections,
        sec.empty = true) ∨
     (∀ sec ∈ (Chunk.new (G := G) (T := T) pos blocks).sections,
        sec.empty = false)) ∧
    ((∀ sec ∈ (Chunk.new (G := G) (T := T) pos blocks).sections,
        sec.empty = true) ↔
      ∀ b ∈ blocks, b.packed_key = none) := by
  have hmem : ∀ sec ∈ (Chunk.new (G := G) (T := T) pos blocks).sections,
      sec.empty = ! blocks.any (fun state => state.packed_key.isSome) := by
    intro sec hsec
    simp only [Chunk.new, List.mem_map, List.mem_range] at hsec
    obtain ⟨s, -, rfl⟩ := hsec
    rfl
  constructor
  · match hany : blocks.any (fun state => state.packed_key.isSome) with
    | true =>
      right
      intro sec hsec
      rw [hmem sec hsec, hany]
      rfl
    | false =>
      left
      intro sec hsec
      rw [hmem sec hsec, hany]
      rfl
  · constructor
    · intro hall b hb
      have h0 : (0 : Nat) ∈ List.range CHUNK_SECTIONS_PER := by
        simp [CHUNK_SECTIONS_PER, CHUNK_HEIGHT, CHUNK_SECTION_HEIGHT]
      have hsec0 := hall _ (List.mem_map_of_mem _ h0)
      rw [hmem _ (List.mem_map_of_mem _ h0)] at hsec0
      have hnone : blocks.any (fun state => state.packed_key.isSome) = false := by
        cases hany : blocks.any (fun state => state.packed_key.isSome) with
        | true => rw [hany] at hsec0; exact absurd hsec0 (by decide)
        | false => rfl
      rw [List.any_eq_false] at hnone
      have := hnone b hb
      cases hkey : b.packed_key with
      | none => rfl
      | some k => rw [hkey] at this; exact absurd rfl this
    · intro hnone sec hsec
      rw [hmem sec hsec]
      have hany : blocks.any (fun state => state.packed_key.isSome) = false := by
        rw [List.any_eq_false]
        intro b hb
        rw [hnone b hb]
        decide
      rw [hany]
      rfl

/-- Witness for C9, at an input with one packed-key block at index 0: every
section is marked non-empty. -/
theorem C9_empty_flag_uniform_witness :
    (({ packed_key := some 7 } :: List.replicate (CHUNK_VOLUME - 1) airState) :
        List BlockState).length = CHUNK_VOLUME ∧
    (((∀ sec ∈ (Chunk.new (G := Unit) (T := Unit) (0, 0)
          ({ packed_key := some 7 } :: List.replicate (CHUNK_VOLUME - 1) airState)).sections,
        sec.empty = true) ∨
      (∀ sec ∈ (Chunk.new (G := Unit) (T := Unit) (0, 0)
          ({ packed_key := some 7 } :: List.replicate (CHUNK_VOLUME - 1) airState)).sections,
        sec.empty = false)) ∧
     ((∀ sec ∈ (Chunk.new (G := Unit) (T := Unit) (0, 0)
          ({ packed_key := some 7 } :: List.replicate (CHUNK_VOLUME - 1) airState)).sections,
        sec.empty = true) ↔
       ∀ b ∈ ({ packed_key := some 7 } :: List.replicate (CHUNK_VOLUME - 1) airState :
          List BlockState), b.packed_key = none)) :=
  ⟨by rw [List.length_cons, List.length_replicate]; decide,
   C9_empty_flag_uniform Unit Unit (0, 0) _
     (by rw [List.length_cons, List.length_replicate]; decide)⟩

/-- Witness for C2: with grass key 0 and glass key 1, the state with packed
key 5 is classified into exactly one layer. -/
theorem C2_classification_partition_witness :
    (grassPred 0 ⟨some 5⟩ = true ∧ glassPred 1 ⟨some 5⟩ = false ∧
      terrainPred 0 1 ⟨some 5⟩ = false) ∨
    (grassPred 0 ⟨some 5⟩ = false ∧ glassPred 1 ⟨some 5⟩ = true ∧
      terrainPred 0 1 ⟨some 5⟩ = false) ∨
    (grassPred 0 ⟨some 5⟩ = false ∧ glassPred 1 ⟨some 5⟩ = false ∧
      terrainPred 0 1 ⟨some 5⟩ = true) :=
  (C2_classification_partition 0 1 (by decide)).2 ⟨some 5⟩ rfl

/-- Claim C7: `Chunk::bake` requires both the grass and glass registry
entries as a precondition; when both are present the two lookups succeed and
the failure branch (the `unwrap` panic) is unreachable, and when an entry is
missing the bake is a fatal, loud failure of the pass (a panic, embedded as
`none`) rather than silently produced geometry. -/
theorem C7_bake_registry_precondition (G T : Type)
    (layerBakeG : BlockManager → Chunk G T → (BlockState → Bool) → BakedChunkLayer G)
    (layerBakeT : BlockManager → Chunk G T → (BlockState → Bool) → BakedChunkLayer T)
    (bm : BlockManager) (c : Chunk G T) :
    (((bm.variant_indices GRASS_ID).isSome = true ∧
      (bm.variant_indices GLASS_ID).isSome = true) →
      (Chunk.bake layerBakeG layerBakeT bm c).isSome = true) ∧
    ((bm.variant_indices GRASS_ID = none ∨ bm.variant_indices GLASS_ID = none) →
      Chunk.bake layerBakeG layerBakeT bm c = none) := by
  constructor
  · rintro ⟨hg, hl⟩
    obtain ⟨gi, hgi⟩ := Option.isSome_iff_exists.mp hg
    obtain ⟨gl, hgl⟩ := Option.isSome_iff_exists.mp hl
    rw [bake_eq_some layerBakeG layerBakeT bm c gi gl hgi hgl]
    rfl
  · exact bake_eq_none layerBakeG layerBakeT bm c

/-- Witness for C7: under the populated registry the bake of `chunk0`
succeeds; under the empty registry it panics. -/
theorem C7_bake_registry_precondition_witness :
    (Chunk.bake layerBakeG0 layerBakeT1 bmGood chunk0).isSome = true ∧
    Chunk.bake layerBakeG0 layerBakeT1 bmBad chunk0 = none :=
  ⟨(C7_bake_registry_precondition Unit Unit layerBakeG0 layerBakeT1 bmGood chunk0).1
      ⟨by decide, by decide⟩,
   (C7_bake_registry_precondition Unit Unit layerBakeG0 layerBakeT1 bmBad chunk0).2
      (Or.inl rfl)⟩

/-- Claim C8: whenever `Chunk::bake` returns, the chunk's `pos` and entire
`sections` array are unchanged; the only modified state is the baked-bundle
slot, replaced in a single store with the fully constructed three-layer
bundle. -/
theorem C8_bake_frame (G T : Type)
    (layerBakeG : BlockManager → Chunk G T → (BlockState → Bool) → BakedChunkLayer G)
    (layerBakeT : BlockManager → Chunk G T → (BlockState → Bool) → BakedChunkLayer T)
    (bm : BlockManager) (c c' : Chunk G T)
    (h : Chunk.bake layerBakeG layerBakeT bm c = some c') :
    c'.pos = c.pos ∧ c'.sections = c.sections ∧
    ∃ gi gl, bm.variant_indices GRASS_ID = some gi ∧
      bm.variant_indices GLASS_ID = some gl ∧
      c'.baked = some (chunkLayersOf layerBakeG layerBakeT bm gi gl c) := by
  cases hg : bm.variant_indices GRASS_ID with
  | none =>
    rw [bake_eq_none layerBakeG layerBakeT bm c (Or.inl hg)] at h
    exact absurd h (by simp)
  | some gi =>
    cases hl : bm.variant_indices GLASS_ID with
    | none =>
      rw [bake_eq_none layerBakeG layerBakeT bm c (Or.inr hl)] at h
      exact absurd h (by simp)
    | some gl =>
      rw [bake_eq_some layerBakeG layerBakeT bm c gi gl hg hl] at h
      injection h with h
      subst h
      exact ⟨rfl, rfl, gi, gl, rfl, rfl, rfl⟩

/-- Witness for C8, at the concrete bake of `chunk0` under `bmGood`. -/
theorem C8_bake_frame_witness :
    chunk0Baked.pos = chunk0.pos ∧ chunk0Baked.sections = chunk0.sections ∧
    ∃ gi gl, bmGood.variant_indices GRASS_ID = some gi ∧
      bmGood.variant_indices GLASS_ID = some gl ∧
      chunk0Baked.baked
        = some (chunkLayersOf layerBakeG0 layerBakeT1 bmGood gi gl chunk0) :=
  C8_bake_frame Unit Unit layerBakeG0 layerBakeT1 bmGood chunk0 chunk0Baked
    (bake_eq_some layerBakeG0 layerBakeT1 bmGood chunk0 0 1 (by decide) (by decide))

/-- Claim C5: after a completed `bake_meshes` pass, the published buffer
mapping contains exactly the keys "transparent", "grass" and "terrain"; each
entry is the upload of that material's layers merged across all snapshot
chunks in snapshot iteration order; and the merged "terrain" entry's vertex
count equals the sum of the individual chunks' terrain-layer vertex counts. -/
theorem C5_published_buffers (G T : Type)
    (layerBakeG : BlockManager → Chunk G T → (BlockState → Bool) → BakedChunkLayer G)
    (layerBakeT : BlockManager → Chunk G T → (BlockState → Bool) → BakedChunkLayer T)
    (bm : BlockManager) (mgr : ChunkManager G T) (gi gl : Nat)
    (h1 : bm.variant_indices GRASS_ID = some gi)
    (h2 : bm.variant_indices GLASS_ID = some gl) :
    ∃ mgr', ChunkManager.bake_meshes layerBakeG layerBakeT bm mgr = some mgr' ∧
      (∀ k : String, (mgr'.section_buffers k).isSome = true ↔
        (k = "transparent" ∨ k = "grass" ∨ k = "terrain")) ∧
      mgr'.section_buffers "transparent" = some
        ((((mgr.loaded_chunks.map Prod.snd).map
            (chunkLayersOf layerBakeG layerBakeT bm gi gl)).foldl
          (fun acc l => acc.extend l.glass) BakedChunkLayer.new).upload) ∧
      mgr'.section_buffers "grass" = some
        ((((mgr.loaded_chunks.map Prod.snd).map
            (chunkLayersOf layerBakeG layerBakeT bm gi gl)).foldl
          (fun acc l => acc.extend l.grass) BakedChunkLayer.new).upload) ∧
      mgr'.section_buffers "terrain" = some
        ((((mgr.loaded_chunks.map Prod.snd).map
            (chunkLayersOf layerBakeG layerBakeT bm gi gl)).foldl
          (fun acc l => acc.extend l.terrain) BakedChunkLayer.new).upload) ∧
      ∀ wb, mgr'.section_buffers "terrain" = some wb →
        wb.vertexCount = ((mgr.loaded_chunks.map Prod.snd).map
          (fun c =>
            (chunkLayersOf layerBakeG layerBakeT bm gi gl c).terrain.vertexCount)).sum := by
  refine ⟨_, bake_meshes_eq layerBakeG layerBakeT bm mgr gi gl h1 h2, ?_, ?_, ?_, ?_, ?_⟩
  · intro k
    simp only [StrMap.insert, StrMap.empty]
    by_cases ht : k = "terrain"
    · simp [ht]
    · by_cases hgr : k = "grass"
      · simp [hgr]
      · by_cases htr : k = "transparent"
        · simp [htr]
        · simp [ht, hgr, htr]
  · simp only [StrMap.insert, StrMap.empty, if_true, if_false]
    rw [if_neg (by decide), if_neg (by decide)]
  · simp only [StrMap.insert, StrMap.empty, if_true, if_false]
    rw [if_neg (by decide)]
  · simp only [StrMap.insert, StrMap.empty, if_true, if_false]
  · intro wb hwb
    simp only [StrMap.insert, StrMap.empty, if_true, if_false,
      Option.some.injEq] at hwb
    subst hwb
    rw [vertexCount_upload,
      show (fun (acc : BakedChunkLayer T) (l : ChunkLayers G T) =>
          acc.extend l.terrain)
        = (fun acc l => BakedChunkLayer.extend acc (ChunkLayers.terrain l)) from rfl,
      ← List.foldl_map ChunkLayers.terrain BakedChunkLayer.extend,
      vertexCount_foldl_extend, List.map_map, List.map_map,
      show (BakedChunkLayer.new (V := T)).vertexCount = 0 from rfl,
      Nat.zero_add]
    rfl

/-- Witness for C5, at the two-chunk manager `mgr2` under `bmGood`. -/
theorem C5_published_buffers_witness :
    ∃ mgr', ChunkManager.bake_meshes layerBakeG0 layerBakeT1 bmGood mgr2 = some mgr' ∧
      (∀ k : String, (mgr'.section_buffers k).isSome = true ↔
        (k = "transparent" ∨ k = "grass" ∨ k = "terrain")) ∧
      mgr'.section_buffers "transparent" = some
        ((((mgr2.loaded_chunks.map Prod.snd).map
            (chunkLayersOf layerBakeG0 layerBakeT1 bmGood 0 1)).foldl
          (fun acc l => acc.extend l.glass) BakedChunkLayer.new).upload) ∧
      mgr'.section_buffers "grass" = some
        ((((mgr2.loaded_chunks.map Prod.snd).map
            (chunkLayersOf layerBakeG0 layerBakeT1 bmGood 0 1)).foldl
          (fun acc l => acc.extend l.grass) BakedChunkLayer.new).upload) ∧
      mgr'.section_buffers "terrain" = some
        ((((mgr2.loaded_chunks.map Prod.snd).map
            (chunkLayersOf layerBakeG0 layerBakeT1 bmGood 0 1)).foldl
          (fun acc l => acc.extend l.terrain) BakedChunkLayer.new).upload) ∧
      ∀ wb, mgr'.section_buffers "terrain" = some wb →
        wb.vertexCount = ((mgr2.loaded_chunks.map Prod.snd).map
          (fun c =>
            (chunkLayersOf layerBakeG0 layerBakeT1 bmGood 0 1 c).terrain.vertexCount)).sum :=
  C5_published_buffers Unit Unit layerBakeG0 layerBakeT1 bmGood mgr2 0 1
    (by decide) (by decide)

/-- Claim C10: whenever `Chunk::bake` returns, the chunk's baked slot holds
`some` complete bundle; consequently, with the registry populated, the merge
step of `bake_meshes` always finds `some` at every snapshot chunk and its
`unwrap` never panics — the whole pass completes. -/
theorem C10_bake_publishes_some (G T : Type)
    (layerBakeG : BlockManager → Chunk G T → (BlockState → Bool) → BakedChunkLayer G)
    (layerBakeT : BlockManager → Chunk G T → (BlockState → Bool) → BakedChunkLayer T)
    (bm : BlockManager) (gi gl : Nat)
    (h1 : bm.variant_indices GRASS_ID = some gi)
    (h2 : bm.variant_indices GLASS_ID = some gl) :
    (∀ c c' : Chunk G T, Chunk.bake layerBakeG layerBakeT bm c = some c' →
      c'.baked.isSome = true) ∧
    (∀ mgr : ChunkManager G T,
      (ChunkManager.bake_meshes layerBakeG layerBakeT bm mgr).isSome = true) := by
  constructor
  · intro c c' h
    rw [bake_eq_some layerBakeG layerBakeT bm c gi gl h1 h2] at h
    injection h with h
    subst h
    rfl
  · intro mgr
    rw [bake_meshes_eq layerBakeG layerBakeT bm mgr gi gl h1 h2]
    rfl

/-- Witness for C10: the full pass over the two-chunk manager completes. -/
theorem C10_bake_publishes_some_witness :
    (ChunkManager.bake_meshes layerBakeG0 layerBakeT1 bmGood mgr2).isSome = true :=
  (C10_bake_publishes_some Unit Unit layerBakeG0 layerBakeT1 bmGood 0 1
    (by decide) (by decide)).2 mgr2

end WgpuMc
